import Mathlib

/-!
Shallow embedding of the superchan TCP channel engine
(src/src/tcp.rs and src/src/lib.rs) and proofs about the claims of
its specification.

Conventions of the embedding:
* byte streams are lists of natural numbers (each entry one byte);
* the state machines of the worker threads are modelled as functions
  over explicit lists of read/accept events, one event per iteration
  of the corresponding Rust loop;
* Rust `uint` arithmetic is modelled with `Nat`, truncating with
  `% 256 ^ uintBytes` exactly where `n as u64` truncates in the
  library code that `write_le_uint` calls;
* a Rust `panic!` is modelled as a distinguished terminal outcome,
  never as a returned error value.
-/

namespace Superchan

/-- Kinds of transport errors, after `std::io::IoErrorKind` as matched by
tcp.rs (only the kinds the code distinguishes, plus representatives of
the rest). -/
inductive IoErrorKind where
  | timedOut
  | endOfFile
  | connectionReset
  | brokenPipe
  | otherIo
  deriving DecidableEq, Repr

/-- Receive-side error, after `ReceiverError` of lib.rs (variants `Io` and
`Decoding`; the tcp.rs revision spells the first variant `IoError`). -/
inductive RecvError where
  | ioError (k : IoErrorKind)
  | decodingError
  deriving DecidableEq, Repr

/-- Result of a receive-side operation, after Rust `Result<S, ReceiverError>`. -/
inductive RResult (S : Type) where
  | ok (val : S)
  | err (e : RecvError)
  deriving DecidableEq, Repr

/-- Result of an I/O write operation, after Rust `IoResult<()>`. -/
inductive IoResultU where
  | ok
  | err (k : IoErrorKind)
  deriving DecidableEq, Repr

/-! ## Frame codec (tcp.rs lines 52-55, 174, 194-196; lib.rs lines 223-229)

The Rust code frames a payload with `write_le_uint(len)`, whose
implementation in the std library of the era writes `uint::BYTES`
little-endian bytes of the length (`u64_to_le_bytes(n as u64,
uint::BYTES, ...)`), and reads it back with `read_le_uint`, which reads
`uint::BYTES` bytes.  `uint::BYTES` is the platform word size in bytes:
8 on the usual 64-bit targets. -/

/-- Number of bytes of the length field: `uint::BYTES` on a 64-bit target. -/
def uintBytes : Nat := 8

/-- Little-endian base-256 digits of `n`, exactly `w` bytes (the low `w`
bytes of `n`), as `u64_to_le_bytes` produces them. -/
def leBytes : Nat → Nat → List Nat
  | 0, _ => []
  | w + 1, n => n % 256 :: leBytes w (n / 256)

/-- Read back a little-endian byte list as a natural number. -/
def fromLeBytes : List Nat → Nat
  | [] => 0
  | b :: bs => b + 256 * fromLeBytes bs

/-- Bytes put on the wire by `Writer::write_le_uint(n)`: `uint::BYTES`
little-endian bytes of `n`. -/
def write_le_uint (n : Nat) : List Nat :=
  leBytes uintBytes n

/-- The full frame the outbound path writes for an encoded payload `e`:
`write_le_uint(e.len())` followed by the payload bytes (tcp.rs lines
52-55, lib.rs lines 224-227). -/
def writeFrame (payload : List Nat) : List Nat :=
  write_le_uint payload.length ++ payload

/-- `Reader::read_le_uint` on a byte stream: consume `uint::BYTES` bytes
and return the decoded length together with the rest of the stream;
`none` models an I/O failure before the full length field arrived. -/
def read_le_uint (s : List Nat) : Option (Nat × List Nat) :=
  if uintBytes ≤ s.length then
    some (fromLeBytes (s.take uintBytes), s.drop uintBytes)
  else
    none

/-! ## read_exact and read_item (tcp.rs lines 208-212, lib.rs lines 216-220) -/

/-- `stream.read_exact(n)` on a byte stream: on success the first `n`
bytes and the remainder; when fewer than `n` bytes remain it fails after
consuming everything that was available. -/
def read_exact (s : List Nat) (n : Nat) : RResult (List Nat) × List Nat :=
  if n ≤ s.length then
    (RResult.ok (s.take n), s.drop n)
  else
    (RResult.err (RecvError.ioError IoErrorKind.endOfFile), [])

/-- `read_item(stream, size)`: read exactly `size` bytes, then run the
decoding pipeline on those bytes only.  The parameter `dec` stands for
the decoding pipeline applied to the consumed bytes (in tcp.rs
`String::from_utf8` followed by `json::decode`, in lib.rs
`bincode::decode`); it never touches the stream.  Returns the decode
result and the remaining stream. -/
def read_item {S : Type} (dec : List Nat → RResult S) (s : List Nat) (size : Nat) :
    RResult S × List Nat :=
  match read_exact s size with
  | (RResult.ok data, rest) => (dec data, rest)
  | (RResult.err e, rest) => (RResult.err e, rest)

/-! ## Outbound worker of the client (tcp.rs lines 49-59)

The worker loop takes each queued `(t, fi)` request, encodes `t`, then
runs
  `stream.write_le_uint(e.len()); stream.write(e); stream.flush();`
discarding all three `IoResult` values (the enclosing function is marked
`#[allow(unused_must_use)]` and the TODO on line 56 records that the
responses should be used to send an error), and finally fulfills the
pending result with `fi.send(Ok(()))` unconditionally. -/

/-- Value with which the outbound worker fulfills the pending result of a
send, as a function of the outcomes of the three write calls.  The code
ignores all three outcomes and always sends `Ok(())` (tcp.rs line 57). -/
def outboundFulfill (wLen wPay wFlush : IoResultU) : IoResultU :=
  IoResultU.ok

/-! ## Inbound worker of the client (tcp.rs lines 64-78) -/

/-- One iteration of the client inbound loop is driven by the outcome of
`stream.read_le_uint()`; when the length read succeeds, the iteration
continues with `read_item`, whose result (`Ok` value or error) is the
payload of the event. -/
inductive ClientEvent (S : Type) where
  | lenOk (r : RResult S)
  | lenErr (k : IoErrorKind)
  deriving DecidableEq, Repr

/-- Run of the client inbound worker over a list of read events, returning
the list of results published to the receive queue (`rs.send`) in order,
and whether the loop has exited (`return` on end-of-file).  Mirrors the
match on tcp.rs lines 69-74: a successful length read publishes the
`read_item` result; `TimedOut` publishes nothing and retries;
`EndOfFile` exits; every other error publishes
`Err(ReceiverError::IoError(e))` and the loop continues. -/
def clientRun {S : Type} : List (ClientEvent S) → List (RResult S) × Bool
  | [] => ([], false)
  | ClientEvent.lenOk r :: rest =>
      let p := clientRun rest
      (r :: p.fst, p.snd)
  | ClientEvent.lenErr IoErrorKind.timedOut :: rest => clientRun rest
  | ClientEvent.lenErr IoErrorKind.endOfFile :: _ => ([], true)
  | ClientEvent.lenErr k :: rest =>
      let p := clientRun rest
      (RResult.err (RecvError.ioError k) :: p.fst, p.snd)

/-! ## Receiver facade (lib.rs lines 167-178, tcp.rs lines 31-35) -/

/-- `ClientReceiver::try_recv` is `self.0.recv()` on the queue fed by the
inbound worker: it takes the next published result, leaving the rest. -/
def tryRecvQ {S : Type} (q : List (RResult S)) : Option (RResult S × List (RResult S)) :=
  match q with
  | [] => none
  | r :: rest => some (r, rest)

/-- Outcome of `Receiver::recv`: either the received value, or the calling
thread has aborted. -/
inductive RecvOutcome (S : Type) where
  | value (s : S)
  | panicked
  deriving DecidableEq, Repr

/-- `Receiver::recv` (lib.rs lines 172-177) applied to the result of
`try_recv`: an `Ok` value is returned, any error aborts the calling
thread. -/
def recvImpl {S : Type} (r : RResult S) : RecvOutcome S :=
  match r with
  | RResult.ok v => RecvOutcome.value v
  | RResult.err _ => RecvOutcome.panicked

/-! ## Server client registry (tcp.rs lines 156-199)

`client_counter` is a plain counter starting at 0; `freed_clients` is a
`RingBuf` used as a FIFO queue (ids of dropped clients are pushed at the
back on lines 183 and 188, and reused from the front on line 163).  The
`live` field tracks the ids of the currently live connections. -/

/-- State of the server client registry. -/
structure Registry where
  counter : Nat
  freed : List Nat
  live : List Nat
  deriving DecidableEq, Repr

/-- Registry state when the server starts: counter 0, nothing freed,
nobody connected (tcp.rs lines 158-159). -/
def regInit : Registry :=
  { counter := 0, freed := [], live := [] }

/-- Id assignment for a newly accepted connection (tcp.rs lines 163-169):
pop the front of the freed queue when it is non-empty, otherwise
increment the counter and use its new value.  Returns the assigned id
and the updated registry, with the new connection recorded live. -/
def connectId (r : Registry) : Nat × Registry :=
  match r.freed with
  | id :: rest => (id, { counter := r.counter, freed := rest, live := id :: r.live })
  | [] =>
      (r.counter + 1,
       { counter := r.counter + 1, freed := [], live := (r.counter + 1) :: r.live })

/-- Termination of the connection holding `id`: the worker pushes the id
onto the back of the freed queue and the connection stops being live
(tcp.rs lines 183 and 188).  Only a live connection can terminate. -/
def disconnect (r : Registry) (id : Nat) : Registry :=
  if id ∈ r.live then
    { counter := r.counter, freed := r.freed ++ [id], live := r.live.erase id }
  else
    r

/-- Server-side registry events: a new connection is accepted, or the
connection holding an id terminates. -/
inductive RegEvent where
  | conn
  | disc (id : Nat)
  deriving DecidableEq, Repr

/-- Run the registry over an event sequence. -/
def regRun (r : Registry) : List RegEvent → Registry
  | [] => r
  | RegEvent.conn :: rest => regRun (connectId r).snd rest
  | RegEvent.disc id :: rest => regRun (disconnect r id) rest

/-- Ids assigned at the successive connect events of an event sequence,
in order. -/
def assignedIds (r : Registry) : List RegEvent → List Nat
  | [] => []
  | RegEvent.conn :: rest => (connectId r).fst :: assignedIds (connectId r).snd rest
  | RegEvent.disc id :: rest => assignedIds (disconnect r id) rest

/-- Registry invariant: no id occurs twice among the live and freed ids
taken together, and every such id was issued by the counter. -/
def regInv (r : Registry) : Prop :=
  (r.live ++ r.freed).Nodup ∧ ∀ id ∈ r.live ++ r.freed, id ≤ r.counter

/-! ## Server per-connection inbound worker (tcp.rs lines 172-198) -/

/-- One iteration of the server per-connection loop is driven by the
outcome of `conn.read_le_uint()` and, on success, of `read_item`:
`frame m` is a fully decoded message, `decodeErr` a successful length
read whose payload failed to decode (line 177), the rest are the error
kinds the match distinguishes. -/
inductive ServerEvent (S : Type) where
  | frame (m : S)
  | timedOut
  | endOfFile
  | ioErr
  | decodeErr
  deriving DecidableEq, Repr

/-- Observable actions of the server per-connection worker, in program
order: a message is read off the stream, the handler `on_msg` is
invoked, the response frame is written back, the client id is pushed
onto the freed queue, the `on_drop` callback is invoked, the worker
thread dies by `panic!`. -/
inductive SAction (S T : Type) where
  | readMsg (m : S)
  | handle (m : S)
  | respond (t : T)
  | pushFree
  | onDropCall
  | died
  deriving DecidableEq, Repr

/-- Trace of the server per-connection worker over its read events, with
`f` the message handler `on_msg` (specialised to one client id).
Mirrors tcp.rs lines 173-197: a decoded frame is handled and its
response written before the next read; `TimedOut` just continues;
`EndOfFile` pushes the id, calls `on_drop` and returns; any other read
error pushes the id and panics; a decode error panics at once. -/
def serverTrace {S T : Type} (f : S → T) : List (ServerEvent S) → List (SAction S T)
  | [] => []
  | ServerEvent.frame m :: rest =>
      SAction.readMsg m :: SAction.handle m :: SAction.respond (f m) :: serverTrace f rest
  | ServerEvent.timedOut :: rest => serverTrace f rest
  | ServerEvent.endOfFile :: _ => [SAction.pushFree, SAction.onDropCall]
  | ServerEvent.ioErr :: _ => [SAction.pushFree, SAction.died]
  | ServerEvent.decodeErr :: _ => [SAction.died]

/-- Number of `on_drop` invocations in a trace. -/
def onDropCount {S T : Type} (t : List (SAction S T)) : Nat :=
  t.countP fun a =>
    match a with
    | SAction.onDropCall => true
    | _ => false

/-- Number of pushes of the client id onto the freed queue in a trace. -/
def pushFreeCount {S T : Type} (t : List (SAction S T)) : Nat :=
  t.countP fun a =>
    match a with
    | SAction.pushFree => true
    | _ => false

/-- How a per-connection event sequence terminates. -/
inductive TermKind where
  | eof
  | io
  | dec
  deriving DecidableEq, Repr

/-- The first terminal event of a per-connection event sequence, if any:
frames and timeouts are not terminal. -/
def firstTerminal {S : Type} : List (ServerEvent S) → Option TermKind
  | [] => none
  | ServerEvent.frame _ :: rest => firstTerminal rest
  | ServerEvent.timedOut :: rest => firstTerminal rest
  | ServerEvent.endOfFile :: _ => some TermKind.eof
  | ServerEvent.ioErr :: _ => some TermKind.io
  | ServerEvent.decodeErr :: _ => some TermKind.dec

/-- The messages the worker fully handles: the frames read before the
first terminal event. -/
def handledMsgs {S : Type} : List (ServerEvent S) → List S
  | [] => []
  | ServerEvent.frame m :: rest => m :: handledMsgs rest
  | ServerEvent.timedOut :: rest => handledMsgs rest
  | ServerEvent.endOfFile :: _ => []
  | ServerEvent.ioErr :: _ => []
  | ServerEvent.decodeErr :: _ => []

/-- Keep only the message-processing actions of a trace (reads, handler
invocations, response writes), dropping the teardown actions. -/
def msgActions {S T : Type} (t : List (SAction S T)) : List (SAction S T) :=
  t.filter fun a =>
    match a with
    | SAction.readMsg _ => true
    | SAction.handle _ => true
    | SAction.respond _ => true
    | _ => false

/-- The responses written back on the connection, in order. -/
def responsesOf {S T : Type} : List (SAction S T) → List T
  | [] => []
  | SAction.respond t :: rest => t :: responsesOf rest
  | _ :: rest => responsesOf rest

/-! ## Accept loop of the server (tcp.rs lines 160-205) -/

/-- Outcome of one `acceptor.incoming()` step: a new connection, a clean
end-of-stream on the listener, or any other listener error. -/
inductive AcceptEv where
  | conn
  | eofErr
  | otherErr
  deriving DecidableEq, Repr

/-- How the accept loop ends.  `errReturn` is the outcome in which the
function returns an `Err` value to its caller; it is included so that
the claim about error surfacing can be stated, the code never produces
it.  `accepting` means the event list ran out with the loop still
running. -/
inductive AcceptOutcome where
  | okUnit
  | errReturn
  | panicked
  | accepting
  deriving DecidableEq, Repr

/-- The accept loop over its listener events (tcp.rs lines 160-205): a
connection is handled and the loop continues; an `EndOfFile` listener
error breaks the loop, after which the function returns `Ok(())`; any
other listener error runs `panic!(e)`. -/
def acceptLoop : List AcceptEv → AcceptOutcome
  | [] => AcceptOutcome.accepting
  | AcceptEv.conn :: rest => acceptLoop rest
  | AcceptEv.eofErr :: _ => AcceptOutcome.okUnit
  | AcceptEv.otherErr :: _ => AcceptOutcome.panicked

/-- Number of connections the accept loop actually accepts (spawns workers
for) before it stops. -/
def acceptedCount : List AcceptEv → Nat
  | [] => 0
  | AcceptEv.conn :: rest => acceptedCount rest + 1
  | AcceptEv.eofErr :: _ => 0
  | AcceptEv.otherErr :: _ => 0

/-! ## Helper lemmas -/

/-- `leBytes` always produces exactly the requested number of bytes. -/
theorem leBytes_length (w : Nat) : ∀ n : Nat, (leBytes w n).length = w := by
  induction w with
  | zero => intro n; rfl
  | succ w ih => intro n; simp [leBytes, ih]

/-- Reading back the little-endian bytes of `n` recovers `n` whenever `n`
fits in the given width. -/
theorem fromLeBytes_leBytes (w : Nat) : ∀ n : Nat, n < 256 ^ w → fromLeBytes (leBytes w n) = n := by
  induction w with
  | zero =>
    intro n h
    have hn : n = 0 := by simpa using h
    subst hn; rfl
  | succ w ih =>
    intro n h
    have hd : n / 256 < 256 ^ w := by
      apply Nat.div_lt_of_lt_mul
      rw [pow_succ, Nat.mul_comm] at h
      exact h
    show n % 256 + 256 * fromLeBytes (leBytes w (n / 256)) = n
    rw [ih _ hd]
    exact Nat.mod_add_div n 256

/-- Accepting a connection preserves the registry invariant, and the id it
assigns is not held by any live connection of the pre-state. -/
theorem connectId_preserves (r : Registry) (h : regInv r) :
    regInv (connectId r).snd ∧ (connectId r).fst ∉ r.live := by
  obtain ⟨c, fr, lv⟩ := r
  obtain ⟨hnd, hle⟩ := h
  have hnd' : (lv ++ fr).Nodup := hnd
  have hle' : ∀ id ∈ lv ++ fr, id ≤ c := hle
  cases fr with
  | nil =>
    have hlv : lv.Nodup := by simpa using hnd'
    have hbound : ∀ id ∈ lv, id ≤ c := fun id hid => hle' id (by simp [hid])
    have hfresh : (c + 1) ∉ lv := by
      intro hmem
      have := hbound _ hmem
      omega
    refine ⟨⟨?_, ?_⟩, hfresh⟩
    · show ((c + 1) :: (lv ++ [])).Nodup
      rw [List.append_nil]
      exact List.Nodup.cons hfresh hlv
    · show ∀ id ∈ (c + 1) :: (lv ++ []), id ≤ c + 1
      intro id hid
      rw [List.append_nil] at hid
      rcases List.mem_cons.mp hid with rfl | hid
      · omega
      · have := hbound _ hid; omega
  | cons id0 tail =>
    have hperm : (lv ++ id0 :: tail).Perm (id0 :: (lv ++ tail)) := List.perm_middle
    have hnd2 : (id0 :: (lv ++ tail)).Nodup := hperm.nodup hnd'
    have hfresh : id0 ∉ lv := by
      have hdisj := List.disjoint_of_nodup_append hnd'
      exact fun hmem => hdisj hmem (List.mem_cons_self id0 tail)
    refine ⟨⟨?_, ?_⟩, hfresh⟩
    · show (id0 :: (lv ++ tail)).Nodup
      exact hnd2
    · show ∀ id ∈ id0 :: (lv ++ tail), id ≤ c
      intro id hid
      apply hle'
      rcases List.mem_cons.mp hid with rfl | hid
      · exact List.mem_append.mpr (Or.inr (List.mem_cons_self id tail))
      · rcases List.mem_append.mp hid with hid | hid
        · exact List.mem_append.mpr (Or.inl hid)
        · exact List.mem_append.mpr (Or.inr (List.mem_cons_of_mem id0 hid))

/-- A disconnect preserves the registry invariant. -/
theorem disconnect_preserves (r : Registry) (id : Nat) (h : regInv r) :
    regInv (disconnect r id) := by
  obtain ⟨hnd, hle⟩ := h
  by_cases hid : id ∈ r.live
  · have hd : disconnect r id =
        { counter := r.counter, freed := r.freed ++ [id], live := r.live.erase id } := by
      simp [disconnect, if_pos hid]
    rw [hd]
    constructor
    · show (r.live.erase id ++ (r.freed ++ [id])).Nodup
      have h1 : r.live.Perm (id :: r.live.erase id) := List.perm_cons_erase hid
      have h2 : (r.live ++ r.freed).Perm (id :: (r.live.erase id ++ r.freed)) :=
        h1.append_right r.freed
      have h3 : ((r.live.erase id ++ r.freed) ++ [id]).Perm
          (id :: (r.live.erase id ++ r.freed)) :=
        List.perm_append_singleton id (r.live.erase id ++ r.freed)
      have h4 : (r.live ++ r.freed).Perm (r.live.erase id ++ (r.freed ++ [id])) := by
        rw [← List.append_assoc]
        exact h2.trans h3.symm
      exact h4.nodup hnd
    · show ∀ x ∈ r.live.erase id ++ (r.freed ++ [id]), x ≤ r.counter
      intro x hx
      apply hle
      rcases List.mem_append.mp hx with hx | hx
      · exact List.mem_append.mpr (Or.inl (List.mem_of_mem_erase hx))
      · rcases List.mem_append.mp hx with hx | hx
        · exact List.mem_append.mpr (Or.inr hx)
        · have hxid : x = id := by simpa using hx
          subst hxid
          exact List.mem_append.mpr (Or.inl hid)
  · have hd : disconnect r id = r := by simp [disconnect, if_neg hid]
    rw [hd]
    exact ⟨hnd, hle⟩

/-- The registry invariant holds along every run. -/
theorem regInv_run (evs : List RegEvent) : ∀ r : Registry, regInv r → regInv (regRun r evs) := by
  induction evs with
  | nil => intro r h; exact h
  | cons e rest ih =>
    intro r h
    cases e with
    | conn => exact ih _ (connectId_preserves r h).1
    | disc id => exact ih _ (disconnect_preserves r id h)

/-- The initial registry state satisfies the invariant. -/
theorem regInv_init : regInv regInit := by
  constructor <;> simp [regInit]

/-- Shape of the id assigned by `connectId`: the front of the freed queue
when the queue is non-empty, the incremented counter otherwise. -/
theorem connectId_fst (r : Registry) :
    (∀ id rest, r.freed = id :: rest → (connectId r).fst = id) ∧
    (r.freed = [] → (connectId r).fst = r.counter + 1) := by
  obtain ⟨c, fr, lv⟩ := r
  cases fr with
  | nil =>
    refine ⟨?_, fun _ => rfl⟩
    intro id rest h
    simp at h
  | cons id0 tail =>
    refine ⟨?_, ?_⟩
    · intro id rest h
      injection h with h1 h2
    · intro h
      simp at h

/-- Counting the teardown actions of a server worker trace as a function
of the first terminal event of its read events. -/
theorem serverTrace_counts (S T : Type) (f : S → T) (evs : List (ServerEvent S)) :
    (firstTerminal evs = some TermKind.eof →
      pushFreeCount (serverTrace f evs) = 1 ∧ onDropCount (serverTrace f evs) = 1) ∧
    (firstTerminal evs = some TermKind.io →
      pushFreeCount (serverTrace f evs) = 1 ∧ onDropCount (serverTrace f evs) = 0) ∧
    (firstTerminal evs = some TermKind.dec →
      pushFreeCount (serverTrace f evs) = 0 ∧ onDropCount (serverTrace f evs) = 0) := by
  induction evs with
  | nil =>
    refine ⟨fun h => ?_, fun h => ?_, fun h => ?_⟩ <;> simp [firstTerminal] at h
  | cons e rest ih =>
    cases e with
    | frame m =>
      have hp : pushFreeCount (serverTrace f (ServerEvent.frame m :: rest)) =
          pushFreeCount (serverTrace f rest) := by
        show (SAction.readMsg m :: SAction.handle m :: SAction.respond (f m) ::
          serverTrace f rest).countP _ = _
        simp [List.countP_cons, pushFreeCount]
      have ho : onDropCount (serverTrace f (ServerEvent.frame m :: rest)) =
          onDropCount (serverTrace f rest) := by
        show (SAction.readMsg m :: SAction.handle m :: SAction.respond (f m) ::
          serverTrace f rest).countP _ = _
        simp [List.countP_cons, onDropCount]
      have hf : firstTerminal (ServerEvent.frame m :: rest) = firstTerminal rest := rfl
      rw [hf, hp, ho]
      exact ih
    | timedOut => exact ih
    | endOfFile =>
      refine ⟨fun _ => ⟨rfl, rfl⟩, fun h => ?_, fun h => ?_⟩ <;>
        simp [firstTerminal] at h
    | ioErr =>
      refine ⟨fun h => ?_, fun _ => ⟨rfl, rfl⟩, fun h => ?_⟩ <;>
        simp [firstTerminal] at h
    | decodeErr =>
      refine ⟨fun h => ?_, fun h => ?_, fun _ => ⟨rfl, rfl⟩⟩ <;>
        simp [firstTerminal] at h

/-- When the freed queue is empty, a connection accepted right after the
termination of the connection holding `id` is assigned `id` again. -/
theorem reuse_after_disconnect (r : Registry) (id : Nat)
    (h1 : id ∈ r.live) (h2 : r.freed = []) :
    (connectId (disconnect r id)).fst = id := by
  simp [disconnect, if_pos h1, h2, connectId]

/-- Prepending accepted connections does not change how the accept loop
ends, and each of them is counted. -/
theorem acceptLoop_replicate_conn (n : Nat) (l : List AcceptEv) :
    acceptLoop (List.replicate n AcceptEv.conn ++ l) = acceptLoop l ∧
    acceptedCount (List.replicate n AcceptEv.conn ++ l) = acceptedCount l + n := by
  induction n with
  | zero =>
    refine ⟨rfl, ?_⟩
    show acceptedCount l = acceptedCount l + 0
    omega
  | succ n ih =>
    rw [List.replicate_succ]
    refine ⟨?_, ?_⟩
    · exact ih.1
    · show acceptedCount (List.replicate n AcceptEv.conn ++ l) + 1 = acceptedCount l + (n + 1)
      have h := ih.2
      omega

/-! ## Claims -/

/-- Claim C1 (code bug): the spec says a transport error during the
length, payload or flush write is delivered to the pending result of
that send as an `IoError`.  The code (tcp.rs lines 51-57) discards all
three write outcomes and fulfills the pending result with `Ok(())`
unconditionally — its own TODO comment on line 56 records that the
write responses should be used to report an error.  Evaluated here at a
failing write: the length write fails with a broken pipe, yet the
pending result is fulfilled with `Ok`, never with the error. -/
theorem c1_outbound_swallows_write_error :
    outboundFulfill (IoResultU.err IoErrorKind.brokenPipe) IoResultU.ok IoResultU.ok =
      IoResultU.ok ∧
    ∀ (k : IoErrorKind) (wPay wFlush : IoResultU),
      outboundFulfill (IoResultU.err k) wPay wFlush ≠ IoResultU.err k := by
  refine ⟨rfl, ?_⟩
  intro k wPay wFlush h
  cases h

/-- Claim C2 counterexample: the claim says a frame starts with a 4-byte
little-endian length.  The code uses `write_le_uint`, which writes
`uint::BYTES` = 8 bytes on a 64-bit target: the frame for the empty
payload is 8 zero bytes, not the 4 zero bytes the claim predicts. -/
theorem c2_counterexample :
    writeFrame [] = [0, 0, 0, 0, 0, 0, 0, 0] ∧ writeFrame [] ≠ [0, 0, 0, 0] := by
  decide

/-- Claim C2 as amended: every frame written consists of exactly
`uint::BYTES` (8 on 64-bit targets) little-endian bytes holding the
payload length `L` followed by exactly the `L` payload bytes, and the
reader consumes exactly those `uint::BYTES` bytes to obtain `L` before
the `L` payload bytes, leaving the stream at the next frame. -/
theorem c2_frame_format (payload rest : List Nat)
    (h : payload.length < 256 ^ uintBytes) :
    (writeFrame payload).length = uintBytes + payload.length ∧
    read_le_uint (writeFrame payload ++ rest) = some (payload.length, payload ++ rest) ∧
    (payload ++ rest).take payload.length = payload ∧
    (payload ++ rest).drop payload.length = rest := by
  have hlen : (write_le_uint payload.length).length = uintBytes := leBytes_length _ _
  refine ⟨?_, ?_, ?_, ?_⟩
  · simp [writeFrame, hlen]
  · have hassoc : writeFrame payload ++ rest = write_le_uint payload.length ++ (payload ++ rest) := by
      simp [writeFrame, List.append_assoc]
    rw [hassoc, read_le_uint, if_pos]
    · rw [← hlen, List.take_left, List.drop_left]
      have hv : fromLeBytes (write_le_uint payload.length) = payload.length :=
        fromLeBytes_leBytes uintBytes payload.length h
      rw [hv]
    · rw [← hlen]
      simp
  · exact List.take_left payload rest
  · exact List.drop_left payload rest

/-- Witness for C2 as amended, at payload `[9, 8]` and trailing stream
`[7]`. -/
theorem c2_witness :
    ([9, 8] : List Nat).length < 256 ^ uintBytes ∧
    ((writeFrame [9, 8]).length = uintBytes + ([9, 8] : List Nat).length ∧
     read_le_uint (writeFrame [9, 8] ++ [7]) = some (([9, 8] : List Nat).length, [9, 8] ++ [7]) ∧
     (([9, 8] : List Nat) ++ [7]).take ([9, 8] : List Nat).length = [9, 8] ∧
     (([9, 8] : List Nat) ++ [7]).drop ([9, 8] : List Nat).length = [7]) :=
  ⟨by decide, c2_frame_format [9, 8] [7] (by decide)⟩

/-- Claim C3: a newly accepted connection is assigned the oldest freed id
(the front of the FIFO freed queue) when the queue is non-empty, and the
incremented counter otherwise; in the scenario where A (id 1) and B
(id 2) connect, A disconnects, and C connects, C is assigned id 1. -/
theorem c3_fifo_id_reuse (evs : List RegEvent) :
    assignedIds regInit [RegEvent.conn, RegEvent.conn, RegEvent.disc 1, RegEvent.conn] =
      [1, 2, 1] ∧
    (∀ id rest, (regRun regInit evs).freed = id :: rest →
      (connectId (regRun regInit evs)).fst = id) ∧
    ((regRun regInit evs).freed = [] →
      (connectId (regRun regInit evs)).fst = (regRun regInit evs).counter + 1) := by
  exact ⟨by decide, (connectId_fst (regRun regInit evs)).1, (connectId_fst (regRun regInit evs)).2⟩

/-- Witness for C3: after one connect and one disconnect the freed queue
is `[1]`, and the next connect is assigned id 1. -/
theorem c3_witness :
    (regRun regInit [RegEvent.conn, RegEvent.disc 1]).freed = [1] ∧
    (connectId (regRun regInit [RegEvent.conn, RegEvent.disc 1])).fst = 1 :=
  ⟨by decide, (c3_fifo_id_reuse [RegEvent.conn, RegEvent.disc 1]).2.1 1 [] (by decide)⟩

/-- Claim C4: in every state of the client registry reachable by
connect/disconnect events, the live client ids are pairwise distinct,
and the id the next accepted connection would be assigned is not held by
any live connection (an id is handed out again only after the connection
holding it terminated). -/
theorem c4_id_uniqueness (evs : List RegEvent) :
    ((regRun regInit evs).live).Nodup ∧
    (connectId (regRun regInit evs)).fst ∉ (regRun regInit evs).live := by
  have h := regInv_run evs regInit regInv_init
  exact ⟨List.Nodup.of_append_left h.1, (connectId_preserves _ h).2⟩

/-- Claim C5 counterexample: the claim says every terminating connection
(clean end-of-stream or connection-fatal error) pushes its id onto the
free-list and fires the disconnect callback exactly once.  In the code
(tcp.rs lines 174-190) a non-timeout, non-EOF read error pushes the id
but panics without invoking `on_drop` (zero invocations), and a decode
error panics without even pushing the id. -/
theorem c5_counterexample :
    serverTrace (fun n : Nat => n) [ServerEvent.ioErr] = [SAction.pushFree, SAction.died] ∧
    onDropCount (serverTrace (fun n : Nat => n) [ServerEvent.ioErr]) = 0 ∧
    serverTrace (fun n : Nat => n) [ServerEvent.decodeErr] = [SAction.died] ∧
    pushFreeCount (serverTrace (fun n : Nat => n) [ServerEvent.decodeErr]) = 0 :=
  ⟨rfl, rfl, rfl, rfl⟩

/-- Claim C5 as amended: only a connection terminating by clean
end-of-stream pushes its id onto the free-list and fires the disconnect
callback exactly once; a connection-fatal read error pushes the id but
fires no callback (the worker panics), and a decode error neither pushes
nor fires the callback.  In all cases the callback fires at most once,
and an id pushed onto an empty free-list is assigned to the next
accepted connection. -/
theorem c5_disconnect_cleanup (S T : Type) (f : S → T) (evs : List (ServerEvent S)) :
    (firstTerminal evs = some TermKind.eof →
      pushFreeCount (serverTrace f evs) = 1 ∧ onDropCount (serverTrace f evs) = 1) ∧
    (firstTerminal evs = some TermKind.io →
      pushFreeCount (serverTrace f evs) = 1 ∧ onDropCount (serverTrace f evs) = 0) ∧
    (firstTerminal evs = some TermKind.dec →
      pushFreeCount (serverTrace f evs) = 0 ∧ onDropCount (serverTrace f evs) = 0) ∧
    (∀ (r : Registry) (id : Nat), id ∈ r.live → r.freed = [] →
      (connectId (disconnect r id)).fst = id) := by
  have h := serverTrace_counts S T f evs
  exact ⟨h.1, h.2.1, h.2.2, fun r id h1 h2 => reuse_after_disconnect r id h1 h2⟩

/-- Witness for C5 as amended: a clean end-of-stream pushes the id once
and fires the callback once, and id 1, freed into an empty queue, is
assigned to the next connection. -/
theorem c5_witness :
    pushFreeCount (serverTrace (fun n : Nat => n) [ServerEvent.endOfFile]) = 1 ∧
    onDropCount (serverTrace (fun n : Nat => n) [ServerEvent.endOfFile]) = 1 ∧
    (connectId (disconnect { counter := 2, freed := [], live := [1, 2] } 1)).fst = 1 :=
  ⟨((c5_disconnect_cleanup Nat Nat (fun n => n) [ServerEvent.endOfFile]).1 rfl).1,
   ((c5_disconnect_cleanup Nat Nat (fun n => n) [ServerEvent.endOfFile]).1 rfl).2,
   (c5_disconnect_cleanup Nat Nat (fun n => n) [ServerEvent.endOfFile]).2.2.2
     { counter := 2, freed := [], live := [1, 2] } 1 (by decide) rfl⟩

/-- Claim C6 counterexample: the claim says a listener error other than
end-of-stream is surfaced as an error result to the caller that started
the server.  The code (tcp.rs line 201) runs `panic!(e)` instead: the
accept loop ends in a panic of the server task, not in an `Err` return
value. -/
theorem c6_counterexample :
    acceptLoop [AcceptEv.otherErr] = AcceptOutcome.panicked ∧
    acceptLoop [AcceptEv.otherErr] ≠ AcceptOutcome.errReturn := by
  decide

/-- Claim C6 as amended: after any number of accepted connections, a clean
end-of-stream on the listener stops the accept loop and the server
returns `Ok` (connections arriving later are not accepted), while any
other listener error makes the accept loop panic the server task rather
than return an error result. -/
theorem c6_accept_loop_termination (n : Nat) (post : List AcceptEv) :
    acceptLoop (List.replicate n AcceptEv.conn ++ AcceptEv.eofErr :: post) =
      AcceptOutcome.okUnit ∧
    acceptedCount (List.replicate n AcceptEv.conn ++ AcceptEv.eofErr :: post) = n ∧
    acceptLoop (List.replicate n AcceptEv.conn ++ AcceptEv.otherErr :: post) =
      AcceptOutcome.panicked ∧
    acceptLoop (List.replicate n AcceptEv.conn ++ AcceptEv.otherErr :: post) ≠
      AcceptOutcome.errReturn := by
  obtain ⟨h1, h2⟩ := acceptLoop_replicate_conn n (AcceptEv.eofErr :: post)
  obtain ⟨h3, _⟩ := acceptLoop_replicate_conn n (AcceptEv.otherErr :: post)
  refine ⟨?_, ?_, ?_, ?_⟩
  · rw [h1]; rfl
  · rw [h2]
    show 0 + n = n
    omega
  · rw [h3]; rfl
  · rw [h3]
    show AcceptOutcome.panicked ≠ AcceptOutcome.errReturn
    decide

/-- Claim C7: per connection, the worker trace restricted to message
processing is exactly, for each handled message in order: read the
message, invoke the handler on it, write the handler response — so the
handler sees the k-th message strictly before the k+1-th, and the
response to the k-th message is written before the k+1-th message is
read; consequently the responses go out in the order of the messages. -/
theorem c7_per_connection_ordering (S T : Type) (f : S → T) (evs : List (ServerEvent S)) :
    msgActions (serverTrace f evs) =
      (handledMsgs evs).flatMap
        (fun m => [SAction.readMsg m, SAction.handle m, SAction.respond (f m)]) ∧
    responsesOf (serverTrace f evs) = (handledMsgs evs).map f := by
  induction evs with
  | nil => exact ⟨rfl, rfl⟩
  | cons e rest ih =>
    cases e with
    | frame m =>
      refine ⟨?_, ?_⟩
      · show SAction.readMsg m :: SAction.handle m :: SAction.respond (f m) ::
            msgActions (serverTrace f rest) =
          SAction.readMsg m :: SAction.handle m :: SAction.respond (f m) ::
            (handledMsgs rest).flatMap
              (fun x => [SAction.readMsg x, SAction.handle x, SAction.respond (f x)])
        rw [ih.1]
      · show f m :: responsesOf (serverTrace f rest) = f m :: (handledMsgs rest).map f
        rw [ih.2]
    | timedOut => exact ih
    | endOfFile => exact ⟨rfl, rfl⟩
    | ioErr => exact ⟨rfl, rfl⟩
    | decodeErr => exact ⟨rfl, rfl⟩

/-- Claim C8 counterexample: the claim says that on a non-retryable I/O
error the client inbound worker exits the loop.  A connection reset is
connection-fatal (non-retryable) per the error taxonomy, yet the code
(tcp.rs lines 73-77) publishes the error and keeps looping: here it goes
on to read and publish one more frame, and the exited flag is false. -/
theorem c8_counterexample :
    clientRun [ClientEvent.lenErr IoErrorKind.connectionReset,
               ClientEvent.lenOk (RResult.ok (0 : Nat))] =
      ([RResult.err (RecvError.ioError IoErrorKind.connectionReset), RResult.ok 0], false) :=
  rfl

/-- Claim C8 as amended: on each iteration the client inbound worker
publishes the decode result after a successful length read, silently
retries on a read timeout, exits without publishing on clean
end-of-stream, and on any other I/O error publishes the `IoError`
downstream and unconditionally keeps looping — there is no retryability
classification and no exit on such errors. -/
theorem c8_client_inbound_loop (S : Type) (r : RResult S) (k : IoErrorKind)
    (rest : List (ClientEvent S))
    (hk1 : k ≠ IoErrorKind.timedOut) (hk2 : k ≠ IoErrorKind.endOfFile) :
    clientRun (ClientEvent.lenOk r :: rest) =
      (r :: (clientRun rest).fst, (clientRun rest).snd) ∧
    clientRun (ClientEvent.lenErr IoErrorKind.timedOut :: rest) = clientRun rest ∧
    clientRun (ClientEvent.lenErr IoErrorKind.endOfFile :: rest) = ([], true) ∧
    clientRun (ClientEvent.lenErr k :: rest) =
      (RResult.err (RecvError.ioError k) :: (clientRun rest).fst, (clientRun rest).snd) := by
  refine ⟨rfl, rfl, rfl, ?_⟩
  cases k with
  | timedOut => exact absurd rfl hk1
  | endOfFile => exact absurd rfl hk2
  | connectionReset => rfl
  | brokenPipe => rfl
  | otherIo => rfl

/-- Witness for C8 as amended, at a broken-pipe error followed by one
successful frame. -/
theorem c8_witness :
    clientRun [ClientEvent.lenErr IoErrorKind.brokenPipe,
               ClientEvent.lenOk (RResult.ok (5 : Nat))] =
      (RResult.err (RecvError.ioError IoErrorKind.brokenPipe) ::
         (clientRun [ClientEvent.lenOk (RResult.ok (5 : Nat))]).fst,
       (clientRun [ClientEvent.lenOk (RResult.ok (5 : Nat))]).snd) :=
  (c8_client_inbound_loop Nat (RResult.ok 5) IoErrorKind.brokenPipe
      [ClientEvent.lenOk (RResult.ok 5)] (by decide) (by decide)).2.2.2

/-- Claim C9: `try_recv` returns the next result published by the inbound
worker (leaving the rest of the queue), and `recv` on that result
returns the value when it is `Ok` and aborts the calling thread when it
is an error. -/
theorem c9_recv_semantics (S : Type) (r : RResult S) (rest : List (RResult S)) :
    tryRecvQ (r :: rest) = some (r, rest) ∧
    (∀ v : S, r = RResult.ok v → recvImpl r = RecvOutcome.value v) ∧
    (∀ e : RecvError, r = RResult.err e → recvImpl r = RecvOutcome.panicked) := by
  refine ⟨rfl, ?_, ?_⟩
  · intro v hv; subst hv; rfl
  · intro e he; subst he; rfl

/-- Witness for C9: a queue holding an `Ok 3` and then a decoding error;
`try_recv` yields them in order, `recv` returns 3 on the first and
aborts on the second. -/
theorem c9_witness :
    tryRecvQ [RResult.ok (3 : Nat), RResult.err RecvError.decodingError] =
      some (RResult.ok 3, [RResult.err RecvError.decodingError]) ∧
    recvImpl (RResult.ok (3 : Nat)) = RecvOutcome.value 3 ∧
    recvImpl (RResult.err (S := Nat) RecvError.decodingError) = RecvOutcome.panicked :=
  ⟨(c9_recv_semantics Nat (RResult.ok 3) [RResult.err RecvError.decodingError]).1,
   (c9_recv_semantics Nat (RResult.ok 3) [RResult.err RecvError.decodingError]).2.1 3 rfl,
   (c9_recv_semantics Nat (RResult.err RecvError.decodingError) []).2.2
     RecvError.decodingError rfl⟩

/-- Claim C10: when the underlying read of `size` bytes succeeds,
`read_item` consumes exactly `size` bytes from the stream and hands
exactly those bytes to the decoding pipeline; decoding (including a
UTF-8 or type-decoding failure) touches no further bytes, so the stream
is left positioned at the next frame boundary regardless of the decode
outcome. -/
theorem c10_read_item_frame_boundary (S : Type) (dec : List Nat → RResult S)
    (s : List Nat) (size : Nat) (h : size ≤ s.length) :
    (read_item dec s size).snd = s.drop size ∧
    (read_item dec s size).fst = dec (s.take size) := by
  simp [read_item, read_exact, if_pos h]

/-- Witness for C10: a decoder that always fails still leaves the stream
exactly past the two consumed bytes. -/
theorem c10_witness :
    (read_item (fun _ => RResult.err (S := Nat) RecvError.decodingError) [1, 2, 3] 2).snd =
      [3] ∧
    (read_item (fun _ => RResult.err (S := Nat) RecvError.decodingError) [1, 2, 3] 2).fst =
      RResult.err RecvError.decodingError :=
  ⟨(c10_read_item_frame_boundary Nat (fun _ => RResult.err RecvError.decodingError)
      [1, 2, 3] 2 (by decide)).1,
   (c10_read_item_frame_boundary Nat (fun _ => RResult.err RecvError.decodingError)
      [1, 2, 3] 2 (by decide)).2⟩

end Superchan
